import Mathlib

/-!
Shallow embedding of the kedge repository (isaaguilar/kedge).

The repository contains two near-duplicate variants of the library
(`kedge.go` and a second source file of unknown name, here called the
"P0" variant), plus a command-line entry point.  Where the two variants
differ, both are embedded, with suffix `K` for the `kedge.go` variant and
`P0` for the other variant.

Go's `map[string]interface{}` values (decoded YAML) are modelled by the
inductive type `Value`; Go maps are modelled as association lists
(`GoMap`), compared through `lookup` (Go map indexing), so that the
unspecified iteration order of Go maps is irrelevant to every statement.
-/

/-- A decoded YAML/JSON value (`interface{}` after `yaml.Unmarshal`). -/
inductive Value where
  | null : Value
  | str : String → Value
  | num : Int → Value
  | bool : Bool → Value
  | arr : List Value → Value
  | map : List (String × Value) → Value

deriving instance DecidableEq for Except

/-- Go `map[string]interface{}`, as an association list. -/
abbrev GoMap := List (String × Value)

/-- Go map indexing `d[k]`: `none` models a missing key (Go `nil`). -/
def lookup : GoMap → String → Option Value
  | [], _ => none
  | (k, v) :: rest, key => if k = key then some v else lookup rest key

/-- Go map assignment `d[k] = v`: replace the binding if present, else add it. -/
def setKey : GoMap → String → Value → GoMap
  | [], key, v => [(key, v)]
  | (k, w) :: rest, key, v =>
    if k = key then (key, v) :: rest else (k, w) :: setKey rest key v

/-- Go `delete(d, k)` (used by `unstructured.RemoveNestedField`). -/
def removeKey : GoMap → String → GoMap
  | [], _ => []
  | (k, v) :: rest, key =>
    if k = key then removeKey rest key else (k, v) :: removeKey rest key

/-- The keys of a Go map are pairwise distinct (always true of a real Go map). -/
def NodupKeys (d : GoMap) : Prop := (d.map Prod.fst).Nodup

instance : DecidablePred NodupKeys := fun d =>
  inferInstanceAs (Decidable ((d.map Prod.fst).Nodup))

/-- Shape test used by `mergeMaps`: is the value a nested map? -/
def Value.isMap : Value → Bool
  | .map _ => true
  | _ => false

mutual
/-- `mergeMaps(d1, d2, recurseArrays)` from `kedge.go` lines 255-292 (identical
in both variants): every entry `(k, v)` of `d2` is written into `d1`; a nested
map meeting a nested map is merged recursively, an array meeting an array is
appended when `recurseArrays` is set, and every other combination overwrites
`d1[k]` with `v`. -/
def mergeMaps : GoMap → GoMap → Bool → GoMap
  | d1, [], _ => d1
  | d1, (k, v) :: rest, ra =>
    mergeMaps (setKey d1 k (mergeValue (lookup d1 k) v ra)) rest ra
termination_by d1 d2 ra => sizeOf d2
decreasing_by
  all_goals simp_wf
  all_goals omega

/-- The value stored at one key by one iteration of the `mergeMaps` loop,
given the current value `old` at that key (`d1[k]`, `none` when absent/nil). -/
def mergeValue : Option Value → Value → Bool → Value
  | old, v, ra =>
    match v with
    | .map m =>
      match old with
      | some (.map n) => .map (mergeMaps n m ra)
      | _ => v
    | .arr a =>
      if ra then
        match old with
        | some (.arr n) => .arr (n ++ a)
        | _ => v
      else v
    | _ => v
termination_by old v ra => sizeOf v
decreasing_by
  all_goals simp_wf
  all_goals omega
end

/-- `combineValues` (both variants): fold the decoded value files, in order,
into one accumulator with `mergeMaps`; a file whose read/decode fails stops
the loop, returning the partial accumulator together with the error. -/
def combineValuesAux (acc : GoMap) : List (Except String GoMap) → Bool → GoMap × Option String
  | [], _ => (acc, none)
  | f :: rest, ra =>
    match f with
    | .error e => (acc, some e)
    | .ok d => combineValuesAux (mergeMaps acc d ra) rest ra

/-- `combineValues(filesToMerge, recurseArrays)`: each list element is the
result of `readValues` on one file. -/
def combineValues (files : List (Except String GoMap)) (ra : Bool) : GoMap × Option String :=
  combineValuesAux [] files ra

/-- The value assigned to key `k` by the last value file that defines `k`
(the file sequence is given already decoded). -/
def lastDef (files : List GoMap) (k : String) : Option Value :=
  (files.filterMap (fun f => lookup f k)).getLast?

/-- The parameter set used by `Apply` (both variants): the merged value files
with the caller-supplied namespace written over any `namespace` key
(`data["namespace"] = namespace`). -/
def applyParams (values : GoMap) (ns : String) : GoMap :=
  setKey values "namespace" (.str ns)

-- Basic lookup/setKey lemmas.

theorem lookup_setKey_self (d : GoMap) (k : String) (v : Value) :
    lookup (setKey d k v) k = some v := by
  induction d with
  | nil => simp [setKey, lookup]
  | cons p rest ih =>
    obtain ⟨k0, w⟩ := p
    by_cases h : k0 = k
    · simp [setKey, h, lookup]
    · simp [setKey, h, lookup, ih]

theorem lookup_setKey_other (d : GoMap) (k k' : String) (v : Value) (h : k ≠ k') :
    lookup (setKey d k v) k' = lookup d k' := by
  induction d with
  | nil => simp [setKey, lookup, h]
  | cons p rest ih =>
    obtain ⟨k0, w⟩ := p
    by_cases h0 : k0 = k
    · subst h0
      simp [setKey, lookup, h]
    · simp [setKey, h0, lookup, ih]

theorem lookup_removeKey_self (d : GoMap) (k : String) :
    lookup (removeKey d k) k = none := by
  induction d with
  | nil => simp [removeKey, lookup]
  | cons p rest ih =>
    obtain ⟨k0, w⟩ := p
    by_cases h : k0 = k
    · simpa [removeKey, h] using ih
    · simpa [removeKey, lookup, h] using ih

theorem lookup_removeKey_other (d : GoMap) (k k' : String) (h : k ≠ k') :
    lookup (removeKey d k) k' = lookup d k' := by
  induction d with
  | nil => simp [removeKey, lookup]
  | cons p rest ih =>
    obtain ⟨k0, w⟩ := p
    have hk : ¬ (k' = k) := fun hc => h hc.symm
    by_cases h0 : k0 = k
    · have hk' : ¬ (k0 = k') := by rw [h0]; exact h
      simp [removeKey, h0, lookup, hk', ih, h, hk]
    · by_cases h1 : k0 = k'
      · simp [removeKey, h0, lookup, h1, hk]
      · simp [removeKey, h0, lookup, h1, ih]

-- mergeMaps lemmas.

theorem mergeMaps_nil (d1 : GoMap) (ra : Bool) : mergeMaps d1 [] ra = d1 := by
  simp [mergeMaps]

theorem mergeMaps_cons (d1 : GoMap) (k : String) (v : Value) (rest : GoMap) (ra : Bool) :
    mergeMaps d1 ((k, v) :: rest) ra =
      mergeMaps (setKey d1 k (mergeValue (lookup d1 k) v ra)) rest ra := by
  simp [mergeMaps]

/-- A key not present in `d2` keeps its `d1` value across the merge. -/
theorem lookup_mergeMaps_of_not_in_d2 (d2 : GoMap) (d1 : GoMap) (k : String) (ra : Bool)
    (h : lookup d2 k = none) :
    lookup (mergeMaps d1 d2 ra) k = lookup d1 k := by
  induction d2 generalizing d1 with
  | nil => simp [mergeMaps_nil]
  | cons p rest ih =>
    obtain ⟨k0, v⟩ := p
    have hk0 : ¬ (k0 = k) := by
      intro hc
      simp [lookup, hc] at h
    have hrest : lookup rest k = none := by
      simpa [lookup, hk0] using h
    rw [mergeMaps_cons, ih _ hrest, lookup_setKey_other _ _ _ _ hk0]

/-- A key absent from the key list has no binding. -/
theorem lookup_eq_none_of_not_mem_keys (d : GoMap) (k : String)
    (h : k ∉ d.map Prod.fst) : lookup d k = none := by
  induction d with
  | nil => simp [lookup]
  | cons p rest ih =>
    obtain ⟨k0, v0⟩ := p
    have hk0 : ¬ (k0 = k) := by
      intro hc
      exact h (by simp [hc])
    have hrest : k ∉ rest.map Prod.fst := by
      intro hc
      exact h (by simp [hc])
    simp [lookup, hk0]
    exact ih hrest

theorem nodupKeys_cons (k : String) (v : Value) (rest : GoMap)
    (h : NodupKeys ((k, v) :: rest)) :
    NodupKeys rest ∧ lookup rest k = none := by
  have hcons : (k :: rest.map Prod.fst).Nodup := by
    simpa [NodupKeys] using h
  have h' := List.nodup_cons.mp hcons
  exact ⟨h'.2, lookup_eq_none_of_not_mem_keys _ _ h'.1⟩

/-- One iteration of the merge loop overwrites the key whenever the incoming
value and the existing value are not both nested maps (with
`recurseArrays = false`). -/
theorem mergeValue_replace (old : Option Value) (v : Value)
    (hshape : ¬ (v.isMap = true ∧ ∃ n, old = some (.map n))) :
    mergeValue old v false = v := by
  cases v with
  | map m =>
    match old with
    | some (.map n) => exact absurd ⟨by simp [Value.isMap], n, rfl⟩ hshape
    | none => simp [mergeValue.eq_def]
    | some .null => simp [mergeValue.eq_def]
    | some (.str s) => simp [mergeValue.eq_def]
    | some (.num n) => simp [mergeValue.eq_def]
    | some (.bool b) => simp [mergeValue.eq_def]
    | some (.arr a) => simp [mergeValue.eq_def]
  | arr a => simp [mergeValue.eq_def]
  | null => simp [mergeValue.eq_def]
  | str s => simp [mergeValue.eq_def]
  | num n => simp [mergeValue.eq_def]
  | bool b => simp [mergeValue.eq_def]

/-- Values whose shape is anything but a nested map meeting a nested map are
written into `d1` verbatim by the merge (last-wins): with
`recurseArrays = false` an array also overwrites.  This needs the `d2` keys to
be distinct, which is always true of a decoded YAML mapping. -/
theorem lookup_mergeMaps_replace (d2 : GoMap) (d1 : GoMap) (k : String) (v : Value)
    (hnodup : NodupKeys d2) (hv : lookup d2 k = some v)
    (hshape : ¬ (v.isMap = true ∧ ∃ n, lookup d1 k = some (.map n))) :
    lookup (mergeMaps d1 d2 false) k = some v := by
  induction d2 generalizing d1 with
  | nil => simp [lookup] at hv
  | cons p rest ih =>
    obtain ⟨k0, v0⟩ := p
    obtain ⟨hnodup', hnone⟩ := nodupKeys_cons k0 v0 rest hnodup
    by_cases h0 : k0 = k
    · subst h0
      have hv0 : v0 = v := by simpa [lookup] using hv
      subst hv0
      rw [mergeMaps_cons, lookup_mergeMaps_of_not_in_d2 _ _ _ _ hnone,
        mergeValue_replace _ _ (by simpa using hshape), lookup_setKey_self]
    · have hvrest : lookup rest k = some v := by simpa [lookup, h0] using hv
      rw [mergeMaps_cons]
      apply ih _ hnodup' hvrest
      rw [lookup_setKey_other _ _ _ _ h0]
      exact hshape

/-- When a nested map meets a nested map, the merge is recursive. -/
theorem lookup_mergeMaps_mapmap (d2 : GoMap) (d1 : GoMap) (k : String)
    (n m : List (String × Value)) (ra : Bool)
    (hnodup : NodupKeys d2)
    (h1 : lookup d1 k = some (.map n)) (h2 : lookup d2 k = some (.map m)) :
    lookup (mergeMaps d1 d2 ra) k = some (.map (mergeMaps n m ra)) := by
  induction d2 generalizing d1 with
  | nil => simp [lookup] at h2
  | cons p rest ih =>
    obtain ⟨k0, v0⟩ := p
    obtain ⟨hnodup', hnone⟩ := nodupKeys_cons k0 v0 rest hnodup
    by_cases h0 : k0 = k
    · subst h0
      have hv0 : v0 = .map m := by simpa [lookup] using h2
      subst hv0
      rw [mergeMaps_cons, lookup_mergeMaps_of_not_in_d2 _ _ _ _ hnone, h1]
      simp [mergeValue, lookup_setKey_self]
    · have hvrest : lookup rest k = some (.map m) := by simpa [lookup, h0] using h2
      rw [mergeMaps_cons]
      apply ih _ hnodup' _ hvrest
      rw [lookup_setKey_other _ _ _ _ h0]
      exact h1

/-- The merge never removes a key: a key is bound in the result exactly when
it is bound in `d1` or in `d2`. -/
theorem lookup_mergeMaps_isSome (d2 : GoMap) (d1 : GoMap) (k : String) (ra : Bool) :
    (lookup (mergeMaps d1 d2 ra) k).isSome =
      ((lookup d1 k).isSome || (lookup d2 k).isSome) := by
  induction d2 generalizing d1 with
  | nil => simp [mergeMaps_nil, lookup]
  | cons p rest ih =>
    obtain ⟨k0, v0⟩ := p
    rw [mergeMaps_cons, ih]
    by_cases h0 : k0 = k
    · subst h0
      simp [lookup, lookup_setKey_self]
    · rw [lookup_setKey_other _ _ _ _ h0]
      simp [lookup, h0]

/-- With every file decoding successfully, `combineValues` is the plain fold
of `mergeMaps` and reports no error. -/
theorem combineValuesAux_ok (files : List GoMap) (acc : GoMap) (ra : Bool) :
    combineValuesAux acc (files.map Except.ok) ra =
      (files.foldl (fun a d => mergeMaps a d ra) acc, none) := by
  induction files generalizing acc with
  | nil => simp [combineValuesAux]
  | cons f rest ih => simp [combineValuesAux, ih]

/-- Last-wins across an ordered file sequence, for any key whose final
defining value is not a nested map. -/
theorem lookup_foldl_mergeMaps_last (files : List GoMap) (acc : GoMap) (k : String) (v : Value)
    (hnodup : ∀ f ∈ files, NodupKeys f)
    (hlast : (files.filterMap (fun f => lookup f k)).getLast? = some v)
    (hv : v.isMap = false) :
    lookup (files.foldl (fun a d => mergeMaps a d false) acc) k = some v := by
  induction files using List.reverseRecOn with
  | nil => simp at hlast
  | append_singleton fs f ih =>
    rw [List.foldl_append]
    simp only [List.foldl_cons, List.foldl_nil]
    cases hf : lookup f k with
    | some w =>
      have hw : w = v := by
        rw [List.filterMap_append] at hlast
        simp [List.filterMap, hf] at hlast
        exact hlast
      subst hw
      apply lookup_mergeMaps_replace f _ k w (hnodup f (by simp)) hf
      intro hc
      rw [hv] at hc
      exact Bool.false_ne_true hc.1
    | none =>
      have hlast' : (fs.filterMap (fun f => lookup f k)).getLast? = some v := by
        rw [List.filterMap_append] at hlast
        simpa [List.filterMap, hf] using hlast
      rw [lookup_mergeMaps_of_not_in_d2 _ _ _ _ hf]
      exact ih (fun g hg => hnodup g (by simp [hg])) hlast'

/-- C4: across an ordered sequence of value files, (i) any key whose last
defining value is not a mapping ends with exactly that value (last-wins,
including at every nesting level through (ii)); (ii) a key bound to a mapping
in both the accumulator and the new source is merged recursively; (iii) a type
mismatch at a key (not both sides nested maps) makes the new value fully
replace the old. -/
theorem c4_values_merge_semantics :
    (∀ (files : List GoMap) (k : String) (v : Value),
        (∀ f ∈ files, NodupKeys f) →
        lastDef files k = some v →
        v.isMap = false →
        lookup (combineValues (files.map Except.ok) false).1 k = some v)
    ∧ (∀ (d1 d2 : GoMap) (k : String) (n m : List (String × Value)) (ra : Bool),
        NodupKeys d2 →
        lookup d1 k = some (.map n) → lookup d2 k = some (.map m) →
        lookup (mergeMaps d1 d2 ra) k = some (.map (mergeMaps n m ra)))
    ∧ (∀ (d1 d2 : GoMap) (k : String) (v w : Value),
        NodupKeys d2 →
        lookup d2 k = some v → lookup d1 k = some w →
        ¬ (v.isMap = true ∧ w.isMap = true) →
        lookup (mergeMaps d1 d2 false) k = some v) := by
  refine ⟨?_, ?_, ?_⟩
  · intro files k v hnodup hlast hv
    rw [combineValues, combineValuesAux_ok]
    exact lookup_foldl_mergeMaps_last files [] k v hnodup hlast hv
  · intro d1 d2 k n m ra hnodup h1 h2
    exact lookup_mergeMaps_mapmap d2 d1 k n m ra hnodup h1 h2
  · intro d1 d2 k v w hnodup hv hw hmm
    apply lookup_mergeMaps_replace d2 d1 k v hnodup hv
    rintro ⟨hvm, n, hn⟩
    rw [hw] at hn
    injection hn with hn
    subst hn
    exact hmm ⟨hvm, by simp [Value.isMap]⟩

/-- Witness for C4 at concrete inputs: two value files; the scalar key `a` is
taken from the second file, the nested maps at `m` are merged recursively, and
the key `b` (a map in file 1, a scalar in file 2) is fully replaced. -/
theorem c4_values_merge_semantics_witness :
    lookup (combineValues ([[("a", .str "1"), ("b", .map [("z", .str "9")])],
        [("a", .str "2"), ("b", .str "flat")]].map Except.ok) false).1 "a"
      = some (.str "2")
    ∧ lookup (mergeMaps [("m", .map [("x", .str "1"), ("y", .str "keep")])]
        [("m", .map [("x", .str "2")])] false) "m"
      = some (.map (mergeMaps [("x", .str "1"), ("y", .str "keep")] [("x", .str "2")] false))
    ∧ lookup (mergeMaps [("b", .map [("z", .str "9")])] [("b", .str "flat")] false) "b"
      = some (.str "flat") := by
  refine ⟨?_, ?_, ?_⟩
  · exact c4_values_merge_semantics.1 _ "a" (.str "2") (by decide) (by rfl) (by rfl)
  · exact c4_values_merge_semantics.2.1 _ _ "m" _ _ false (by decide) (by rfl) (by rfl)
  · exact c4_values_merge_semantics.2.2 _ _ "b" (.str "flat") (.map [("z", .str "9")])
      (by decide) (by rfl) (by rfl) (by decide)

/-- C10: merging never removes a key — a key is bound in `mergeMaps d1 d2 ra`
exactly when it is bound in `d1` or in `d2` (the result's key set is the union
of the two key sets), for either setting of the recurse-arrays flag. -/
theorem c10_merge_never_removes_keys (d1 d2 : GoMap) (ra : Bool) (k : String) :
    (lookup (mergeMaps d1 d2 ra) k).isSome =
      ((lookup d1 k).isSome || (lookup d2 k).isSome) :=
  lookup_mergeMaps_isSome d2 d1 k ra

/-- C8: the synthetic `namespace` entry is written into the parameter set
after the value files have been merged, so the caller-supplied namespace
overrides any `namespace` key from any value file. -/
theorem c8_namespace_overrides_value_files (files : List (Except String GoMap)) (ns : String) :
    lookup (applyParams (combineValues files false).1 ns) "namespace" = some (.str ns) :=
  lookup_setKey_self _ _ _

/-!
Reconciler model.  The decoded manifest is a `Value`; the cluster (discovery,
dynamic client, scheme) is an oracle `Cluster`.  The metadata accessors below
follow `k8s.io/apimachinery` `unstructured`: a string getter returns `""` when
the field is absent or not a string; a string setter with an empty value
removes the field; `SetOwnerReferences` with an empty non-nil slice stores an
empty list; a set through a non-map `metadata` value is a swallowed error.
-/

/-- `NestedString`-style field read at the top level (`apiVersion`, `kind`). -/
def getStrField (fields : GoMap) (key : String) : String :=
  match lookup fields key with
  | some (.str s) => s
  | _ => ""

/-- Read a `metadata` subfield. -/
def lookupMeta (fields : GoMap) (key : String) : Option Value :=
  match lookup fields "metadata" with
  | some (.map md) => lookup md key
  | _ => none

/-- `setNestedField(v, "metadata", key)`: creates `metadata` when absent,
swallows the error when `metadata` is not a map. -/
def setMetaField (fields : GoMap) (key : String) (v : Value) : GoMap :=
  match lookup fields "metadata" with
  | some (.map md) => setKey fields "metadata" (.map (setKey md key v))
  | some _ => fields
  | none => setKey fields "metadata" (.map [(key, v)])

/-- `RemoveNestedField(obj, "metadata", key)`. -/
def removeMetaField (fields : GoMap) (key : String) : GoMap :=
  match lookup fields "metadata" with
  | some (.map md) => setKey fields "metadata" (.map (removeKey md key))
  | _ => fields

/-- `GetNamespace()`: `""` when absent or not a string. -/
def getNamespaceU (fields : GoMap) : String :=
  match lookupMeta fields "namespace" with
  | some (.str s) => s
  | _ => ""

/-- `GetName()`. -/
def getNameU (fields : GoMap) : String :=
  match lookupMeta fields "name" with
  | some (.str s) => s
  | _ => ""

/-- `SetNamespace(ns)`: removes the field when `ns` is empty. -/
def setNamespaceU (fields : GoMap) (ns : String) : GoMap :=
  if ns = "" then removeMetaField fields "namespace"
  else setMetaField fields "namespace" (.str ns)

/-- `SetSelfLink("")` removes the field. -/
def setSelfLinkEmptyU (fields : GoMap) : GoMap := removeMetaField fields "selfLink"

/-- `SetResourceVersion("")` removes the field. -/
def setResourceVersionEmptyU (fields : GoMap) : GoMap := removeMetaField fields "resourceVersion"

/-- `SetUID("")` removes the field. -/
def setUIDEmptyU (fields : GoMap) : GoMap := removeMetaField fields "uid"

/-- `SetOwnerReferences([]metav1.OwnerReference{})`: the slice is non-nil, so
the field is set to an empty list. -/
def setOwnerReferencesEmptyU (fields : GoMap) : GoMap :=
  setMetaField fields "ownerReferences" (.arr [])

/-- The P0-variant stripping before the create attempt: `SetSelfLink("")`,
`SetResourceVersion("")`, `SetUID("")`, `SetOwnerReferences([])`. -/
def stripP0 (fields : GoMap) : GoMap :=
  setOwnerReferencesEmptyU (setUIDEmptyU (setResourceVersionEmptyU (setSelfLinkEmptyU fields)))

/-- The kedge.go-variant preparation before the create attempt (lines 86-89):
`SetNamespace(namespace)` (unconditional), `SetResourceVersion("")`,
`SetUID("")`, `SetOwnerReferences([])` — no `SetSelfLink`. -/
def prepareK (fields : GoMap) (ns : String) : GoMap :=
  setOwnerReferencesEmptyU (setUIDEmptyU (setResourceVersionEmptyU (setNamespaceU fields ns)))

/-- Outcome of the dynamic-client `Create` call. -/
inductive CreateResult where
  | created : CreateResult
  | alreadyExists : CreateResult
  | otherError : String → CreateResult

/-- The cluster oracle: `resolve apiVersion kind` models
`getDynamicClientOnKind` (an error covers discovery/transport failure; `ok b`
returns whether the kind is namespace-scoped); `create` and `patch` model the
dynamic-client calls, receiving the namespace scope the client was bound to;
`patchData` models `makeNewPatchableData` (scheme lookup plus re-serialization,
P0 variant only). -/
structure Cluster where
  resolve : String → String → Except String Bool
  create : Option String → GoMap → CreateResult
  patchData : GoMap → Except String GoMap
  patch : Option String → String → GoMap → Except String Unit

/-- One create call recorded by the reconciler: the namespace scope of the
client (`none` for cluster-scoped) and the object sent. -/
abbrev CreateCall := Option String × GoMap

/-- The P0-variant "Prepare" step for a resolved kind: for a namespaced kind a
namespace already on the document is preferred (the document is untouched),
else the caller namespace is injected into it; a cluster-scoped kind keeps an
unscoped client.  The server-managed fields are then stripped.  Returns the
namespace scope of the client and the object that will be sent. -/
def prepareP0 (ns : String) (fields : GoMap) (isNamespaced : Bool) : CreateCall :=
  let nsScope : Option String × GoMap :=
    if isNamespaced then
      if getNamespaceU fields ≠ "" then (some (getNamespaceU fields), fields)
      else (some ns, setNamespaceU fields ns)
    else (none, fields)
  (nsScope.1, stripP0 nsScope.2)

/-- The single-resource path of the P0-variant `createOrUpdateResource`
(after the `IsList` branch was not taken): the generic-List kind is dropped;
discovery failure returns an error; then prepare, create, and on
already-exists a patchable body is built and patched.  Returns the create
call made (if any) and the returned error. -/
def singleP0 (cl : Cluster) (ns : String) (fields : GoMap) :
    Option CreateCall × Except String Unit :=
  let kind := getStrField fields "kind"
  let apiVersion := getStrField fields "apiVersion"
  if kind = "List" then (none, .ok ())
  else
    match cl.resolve apiVersion kind with
    | .error e => (none, .error ("ERROR: could not get a client to handle resource: " ++ e))
    | .ok isNamespaced =>
      let pr := prepareP0 ns fields isNamespaced
      let nsLog := match pr.1 with | some s => s | none => ns
      (some pr,
        match cl.create pr.1 pr.2 with
        | .created => .ok ()
        | .otherError e =>
          .error ("ERROR: could not create " ++ kind ++ " '"
            ++ nsLog ++ "/" ++ getNameU pr.2 ++ "': " ++ e)
        | .alreadyExists =>
          match cl.patchData pr.2 with
          | .error e =>
            .error ("could not marshal resource '" ++ nsLog ++ "/"
              ++ getNameU pr.2 ++ "': " ++ e)
          | .ok b =>
            match cl.patch pr.1 (getNameU pr.2) b with
            | .error e =>
              .error ("ERROR: could not patch " ++ kind ++ " '"
                ++ nsLog ++ "/" ++ getNameU pr.2 ++ "': " ++ e)
            | .ok _ => .ok ())

/-- The single-resource path of the kedge.go-variant `createOrUpdateResource`
(a void function: every failure is only logged).  There is no generic-List
kind check; the caller namespace is always written onto the document; the
self-link is not stripped.  Returns the create calls made. -/
def singleK (cl : Cluster) (ns : String) (fields : GoMap) : List CreateCall :=
  let kind := getStrField fields "kind"
  let apiVersion := getStrField fields "apiVersion"
  match cl.resolve apiVersion kind with
  | .error _ => []
  | .ok isNamespaced =>
    let nsUsed : Option String := if isNamespaced then some ns else none
    [(nsUsed, prepareK fields ns)]

/-- `sizeOf` of a value found by `lookup` is below the map's. -/
theorem sizeOf_lookup_lt (d : GoMap) (k : String) (v : Value) (h : lookup d k = some v) :
    sizeOf v < sizeOf d := by
  induction d with
  | nil => simp [lookup] at h
  | cons p rest ih =>
    obtain ⟨k0, v0⟩ := p
    by_cases h0 : k0 = k
    · have hv : v0 = v := by simpa [lookup, h0] using h
      subst hv
      simp
      omega
    · have h' : lookup rest k = some v := by simpa [lookup, h0] using h
      have := ih h'
      simp
      omega

mutual
/-- The P0-variant `createOrUpdateResource` on a decoded document: a non-map
document is an unmarshal error; a document with an `items` array is a list and
each item is processed recursively through `EachListItem`, which stops at the
first item whose processing returns an error; otherwise the single-resource
path runs.  Returns the create calls made, in order, and the returned error. -/
def couP0 (cl : Cluster) (ns : String) : Value → List CreateCall × Except String Unit
  | .map fields =>
    match h : lookup fields "items" with
    | some (.arr items) => couListP0 cl ns items
    | _ => ((singleP0 cl ns fields).1.toList, (singleP0 cl ns fields).2)
  | _ => ([], .error "ERROR: could not unmarshal resource")
termination_by v => sizeOf v
decreasing_by
  simp_wf
  have hlt := sizeOf_lookup_lt _ "items" _ h
  simp at hlt
  omega

/-- `EachListItem` over the decoded list items (P0 variant): each item must be
an object; its bytes are re-decoded and processed recursively; the iteration
aborts at the first callback error, which `createOrUpdateResource` returns. -/
def couListP0 (cl : Cluster) (ns : String) : List Value → List CreateCall × Except String Unit
  | [] => ([], .ok ())
  | item :: rest =>
    match item with
    | .map m =>
      match couP0 cl ns (.map m) with
      | (tr, .ok _) =>
        match couListP0 cl ns rest with
        | (tr2, res) => (tr ++ tr2, res)
      | (tr, .error e) => (tr, .error e)
    | _ => ([], .error "items member is not an object")
termination_by l => sizeOf l
decreasing_by
  all_goals simp_wf
  all_goals omega
end

mutual
/-- The kedge.go-variant `createOrUpdateResource` (void): unmarshal failures
and reconciliation failures are only logged; the error returned by
`EachListItem` is discarded.  Returns the create calls made, in order. -/
def couK (cl : Cluster) (ns : String) : Value → List CreateCall
  | .map fields =>
    match h : lookup fields "items" with
    | some (.arr items) => couListK cl ns items
    | _ => singleK cl ns fields
  | _ => []
termination_by v => sizeOf v
decreasing_by
  simp_wf
  have hlt := sizeOf_lookup_lt _ "items" _ h
  simp at hlt
  omega

/-- `EachListItem` over the decoded list items (kedge.go variant): a non-map
item stops the iteration with an error, which the caller discards; callback
failures inside `createOrUpdateResource` are only logged, so every map item is
processed. -/
def couListK (cl : Cluster) (ns : String) : List Value → List CreateCall
  | [] => []
  | item :: rest =>
    match item with
    | .map m => couK cl ns (.map m) ++ couListK cl ns rest
    | _ => []
termination_by l => sizeOf l
decreasing_by
  all_goals simp_wf
  all_goals omega
end

/-- The P0-variant `Apply`: merge the value files (abort on error), inject the
namespace, stat the template (abort on error), render (abort on error), then
reconcile the decoded manifest, returning its error. -/
def applyP0 (valueFiles : List (Except String GoMap)) (stat : Except String Unit)
    (render : GoMap → Except String Value) (cl : Cluster) (ns : String) :
    Except String Unit :=
  match combineValues valueFiles false with
  | (_, some e) => .error ("error reading in values data: " ++ e)
  | (data, none) =>
    let params := applyParams data ns
    match stat with
    | .error e => .error ("could not stat file: " ++ e)
    | .ok _ =>
      match render params with
      | .error e => .error ("could not render template: " ++ e)
      | .ok doc => (couP0 cl ns doc).2

/-- The kedge.go-variant `Apply`: same pipeline, but the reconciler is void
and — faithfully to `kedge.go` lines 42-45 — a render failure returns `nil`
(`none`), not the error. -/
def applyK (valueFiles : List (Except String GoMap)) (stat : Except String Unit)
    (render : GoMap → Except String Value) (cl : Cluster) (ns : String) :
    Option String :=
  match combineValues valueFiles false with
  | (_, some e) => some e
  | (data, none) =>
    let params := applyParams data ns
    match stat with
    | .error e => some e
    | .ok _ =>
      match render params with
      | .error _ => none
      | .ok doc =>
        let _ := couK cl ns doc
        none

/-- `Unstructured.IsList()`: the document has an `items` field holding an
array (of any contents). -/
def isListU (m : GoMap) : Bool :=
  match lookup m "items" with
  | some (.arr _) => true
  | _ => false

-- Equation helpers for the list/single split of both reconciler variants.

theorem couP0_eq_items (cl : Cluster) (ns : String) (fields : GoMap) (items : List Value)
    (h : lookup fields "items" = some (.arr items)) :
    couP0 cl ns (.map fields) = couListP0 cl ns items := by
  simp only [couP0]
  split
  · rename_i items' heq
    rw [h] at heq
    cases heq
    rfl
  · rename_i hne
    exact absurd h (hne items)

theorem couK_eq_items (cl : Cluster) (ns : String) (fields : GoMap) (items : List Value)
    (h : lookup fields "items" = some (.arr items)) :
    couK cl ns (.map fields) = couListK cl ns items := by
  simp only [couK]
  split
  · rename_i items' heq
    rw [h] at heq
    cases heq
    rfl
  · rename_i hne
    exact absurd h (hne items)

theorem couP0_eq_single (cl : Cluster) (ns : String) (m : GoMap)
    (h : isListU m = false) :
    couP0 cl ns (.map m) = ((singleP0 cl ns m).1.toList, (singleP0 cl ns m).2) := by
  rcases hl : lookup m "items" with - | v
  · simp [couP0, hl]
  · cases v with
    | arr items => simp [isListU, hl] at h
    | null => simp [couP0, hl]
    | str s => simp [couP0, hl]
    | num n => simp [couP0, hl]
    | bool b => simp [couP0, hl]
    | map mm => simp [couP0, hl]

theorem couK_eq_single (cl : Cluster) (ns : String) (m : GoMap)
    (h : isListU m = false) :
    couK cl ns (.map m) = singleK cl ns m := by
  rcases hl : lookup m "items" with - | v
  · simp [couK, hl]
  · cases v with
    | arr items => simp [isListU, hl] at h
    | null => simp [couK, hl]
    | str s => simp [couK, hl]
    | num n => simp [couK, hl]
    | bool b => simp [couK, hl]
    | map mm => simp [couK, hl]

theorem couListP0_nil (cl : Cluster) (ns : String) :
    couListP0 cl ns [] = ([], .ok ()) := by
  simp [couListP0]

theorem couListK_nil (cl : Cluster) (ns : String) :
    couListK cl ns [] = [] := by
  simp [couListK]

/-- C9: a decoded document whose kind is the generic `"List"` marker and whose
`items` array is empty is silently dropped by both variants: zero create
calls are made and no error is returned. -/
theorem c9_empty_list_dropped (cl : Cluster) (ns : String) (fields : GoMap)
    (hkind : getStrField fields "kind" = "List")
    (hitems : lookup fields "items" = some (.arr [])) :
    couP0 cl ns (.map fields) = ([], .ok ()) ∧ couK cl ns (.map fields) = [] := by
  refine ⟨?_, ?_⟩
  · rw [couP0_eq_items cl ns fields [] hitems, couListP0_nil]
  · rw [couK_eq_items cl ns fields [] hitems, couListK_nil]

/-- A cluster oracle on which every kind resolves as namespaced and every
create succeeds. -/
def clNoop : Cluster where
  resolve := fun _ _ => .ok true
  create := fun _ _ => .created
  patchData := fun o => .ok o
  patch := fun _ _ _ => .ok ()

/-- Witness for C9: the concrete empty generic list document. -/
theorem c9_empty_list_dropped_witness :
    getStrField [("apiVersion", .str "v1"), ("kind", .str "List"), ("items", .arr [])] "kind"
        = "List"
    ∧ lookup [("apiVersion", .str "v1"), ("kind", .str "List"), ("items", .arr [])] "items"
        = some (.arr [])
    ∧ couP0 clNoop "default"
        (.map [("apiVersion", .str "v1"), ("kind", .str "List"), ("items", .arr [])])
        = ([], .ok ())
    ∧ couK clNoop "default"
        (.map [("apiVersion", .str "v1"), ("kind", .str "List"), ("items", .arr [])])
        = [] := by
  have h := c9_empty_list_dropped clNoop "default"
    [("apiVersion", .str "v1"), ("kind", .str "List"), ("items", .arr [])] (by rfl) (by rfl)
  exact ⟨rfl, rfl, h.1, h.2⟩

/-!
Discovery: `getAPIResourceForGVK` scans the server's resource catalog for the
group-version, binding to the first entry whose kind matches exactly and whose
resource name has no "/" (sub-resources), stamping the requested group and
version onto it; with no match it returns the zero `metav1.APIResource`
together with a nil error.
-/

/-- `strings.Contains(name, "/")`: the one-character pattern makes this the
same as character containment. -/
def containsSlash (s : String) : Bool := s.toList.contains '/'

/-- The fields of `metav1.APIResource` used by the scan. -/
structure APIResource where
  name : String
  kind : String
  namespaced : Bool
  group : String
  version : String
deriving DecidableEq

/-- The zero value `metav1.APIResource{}` that `res` is initialised to. -/
def APIResource.zero : APIResource :=
  { name := "", kind := "", namespaced := false, group := "", version := "" }

/-- A group-version-kind triple. -/
structure GVK where
  group : String
  version : String
  kind : String

/-- The selection loop of `getAPIResourceForGVK` (identical in all variants):
the first entry with an exact kind match and no "/" in its resource name wins;
no match leaves the zero value. -/
def scanAPIResources (gvk : GVK) : List APIResource → APIResource
  | [] => APIResource.zero
  | r :: rest =>
    if r.kind = gvk.kind ∧ containsSlash r.name = false then
      { r with group := gvk.group, version := gvk.version }
    else scanAPIResources gvk rest

/-- `getAPIResourceForGVK`: `serverResources` is the oracle outcome of
`ServerResourcesForGroupVersion` (an error also covers discovery-client
construction failure); on success the scan result is returned with a nil
error even when nothing matched. -/
def getAPIResourceForGVK (gvk : GVK) (serverResources : Except String (List APIResource)) :
    Except String APIResource :=
  match serverResources with
  | .error e => .error e
  | .ok resList => .ok (scanAPIResources gvk resList)

theorem scanAPIResources_binds (gvk : GVK) (l : List APIResource)
    (hne : scanAPIResources gvk l ≠ APIResource.zero) :
    ∃ e ∈ l, e.kind = gvk.kind ∧ containsSlash e.name = false
      ∧ scanAPIResources gvk l = { e with group := gvk.group, version := gvk.version } := by
  induction l with
  | nil => exact absurd rfl hne
  | cons r rest ih =>
    by_cases hr : r.kind = gvk.kind ∧ containsSlash r.name = false
    · refine ⟨r, by simp, hr.1, hr.2, ?_⟩
      simp [scanAPIResources, hr]
    · have hrec : scanAPIResources gvk (r :: rest) = scanAPIResources gvk rest := by
        simp [scanAPIResources, hr]
      rw [hrec] at hne ⊢
      obtain ⟨e, he, h1, h2, h3⟩ := ih hne
      exact ⟨e, by simp [he], h1, h2, h3⟩

theorem scanAPIResources_miss (gvk : GVK) (l : List APIResource)
    (h : ∀ e ∈ l, ¬ (e.kind = gvk.kind ∧ containsSlash e.name = false)) :
    scanAPIResources gvk l = APIResource.zero := by
  induction l with
  | nil => rfl
  | cons r rest ih =>
    have hr : ¬ (r.kind = gvk.kind ∧ containsSlash r.name = false) := h r (by simp)
    rw [show scanAPIResources gvk (r :: rest) = scanAPIResources gvk rest by
      simp [scanAPIResources, hr]]
    exact ih (fun e he => h e (by simp [he]))

/-- C6: discovery binds only to a catalog entry whose kind matches exactly and
whose resource name contains no "/" (sub-resource entries are excluded), and
when no entry matches it returns the zero resource coordinate with a nil
error (`ok`), not a discovery failure. -/
theorem c6_discovery_binding :
    (∀ (gvk : GVK) (l : List APIResource) (r : APIResource),
        getAPIResourceForGVK gvk (.ok l) = .ok r → r ≠ APIResource.zero →
        ∃ e ∈ l, e.kind = gvk.kind ∧ containsSlash e.name = false
          ∧ r = { e with group := gvk.group, version := gvk.version })
    ∧ (∀ (gvk : GVK) (l : List APIResource),
        (∀ e ∈ l, ¬ (e.kind = gvk.kind ∧ containsSlash e.name = false)) →
        getAPIResourceForGVK gvk (.ok l) = .ok APIResource.zero) := by
  constructor
  · intro gvk l r hok hne
    have hr : r = scanAPIResources gvk l := by
      simpa [getAPIResourceForGVK] using hok.symm
    subst hr
    exact scanAPIResources_binds gvk l hne
  · intro gvk l h
    simp [getAPIResourceForGVK, scanAPIResources_miss gvk l h]

/-- The two-entry catalog of the C6 witness: the `pods/status` sub-resource
listed before `pods`. -/
def podCatalog : List APIResource :=
  [{ name := "pods/status", kind := "Pod", namespaced := true, group := "", version := "" },
   { name := "pods", kind := "Pod", namespaced := true, group := "", version := "" }]

/-- Witness for C6: on `podCatalog` discovery binds to the `pods` entry, not
the sub-resource listed first; on a catalog holding only the sub-resource it
returns the zero coordinate with a nil error. -/
theorem c6_discovery_binding_witness :
    (∃ e ∈ podCatalog, e.kind = "Pod" ∧ containsSlash e.name = false
        ∧ scanAPIResources ⟨"", "v1", "Pod"⟩ podCatalog
            = { e with group := "", version := "v1" })
    ∧ getAPIResourceForGVK ⟨"", "v1", "Pod"⟩ (.ok (podCatalog.take 1))
        = .ok APIResource.zero := by
  constructor
  · exact c6_discovery_binding.1 ⟨"", "v1", "Pod"⟩ podCatalog _ (by rfl) (by decide)
  · exact c6_discovery_binding.2 ⟨"", "v1", "Pod"⟩ (podCatalog.take 1) (by decide)

-- C3: namespace preference.

/-- C3 (amended): in the P0 variant, for a namespace-scoped kind the
reconciler prefers a non-empty namespace already on the document — the
operation is scoped to it and the document is only stripped, not rewritten —
and injects the caller-supplied namespace into the document only when the
document namespace is empty.  In the kedge.go variant the caller-supplied
namespace is always injected, overwriting any document namespace (see the
counterexample). -/
theorem c3_namespace_preference_amended (cl : Cluster) (ns : String) (fields : GoMap)
    (hkind : getStrField fields "kind" ≠ "List")
    (hres : cl.resolve (getStrField fields "apiVersion") (getStrField fields "kind")
      = .ok true) :
    (singleP0 cl ns fields).1 = some (prepareP0 ns fields true)
    ∧ (getNamespaceU fields ≠ "" →
        prepareP0 ns fields true = (some (getNamespaceU fields), stripP0 fields))
    ∧ (getNamespaceU fields = "" →
        prepareP0 ns fields true = (some ns, stripP0 (setNamespaceU fields ns)))
    ∧ singleK cl ns fields = [(some ns, prepareK fields ns)] := by
  refine ⟨?_, ?_, ?_, ?_⟩
  · simp [singleP0, hkind, hres]
  · intro hne
    simp [prepareP0, hne]
  · intro heq
    simp [prepareP0, heq]
  · simp [singleK, hres]

/-- A document carrying its own namespace. -/
def nsDoc : GoMap :=
  [("apiVersion", .str "v1"), ("kind", .str "ConfigMap"),
   ("metadata", .map [("name", .str "cm"), ("namespace", .str "docns")])]

/-- Counterexample to C3: in the kedge.go variant, a document whose namespace
is `docns` is reconciled with the caller namespace `callerns` — the client is
scoped to `callerns`, not `docns`, and the document namespace is
overwritten. -/
theorem c3_namespace_preference_counterexample :
    getNamespaceU nsDoc = "docns"
    ∧ (singleK clNoop "callerns" nsDoc).map Prod.fst = [some "callerns"]
    ∧ (singleK clNoop "callerns" nsDoc).map Prod.fst ≠ [some "docns"]
    ∧ getNamespaceU (prepareK nsDoc "callerns") = "callerns" := by
  refine ⟨rfl, rfl, by decide, rfl⟩

/-- Witness for C3 (amended) at `nsDoc`: the P0 create call is scoped to the
document namespace and the document is only stripped. -/
theorem c3_namespace_preference_amended_witness :
    (singleP0 clNoop "callerns" nsDoc).1 = some (prepareP0 "callerns" nsDoc true)
    ∧ prepareP0 "callerns" nsDoc true = (some (getNamespaceU nsDoc), stripP0 nsDoc)
    ∧ singleK clNoop "callerns" nsDoc = [(some "callerns", prepareK nsDoc "callerns")] := by
  have h := c3_namespace_preference_amended clNoop "callerns" nsDoc (by decide) (by rfl)
  exact ⟨h.1, h.2.1 (by decide), h.2.2.2⟩

-- C7: stripping of server-managed fields.

theorem setMetaField_eq (fields : GoMap) (md : List (String × Value)) (key : String) (v : Value)
    (hmd : lookup fields "metadata" = some (.map md)) :
    setMetaField fields key v = setKey fields "metadata" (.map (setKey md key v)) := by
  simp [setMetaField, hmd]

theorem removeMetaField_eq (fields : GoMap) (md : List (String × Value)) (key : String)
    (hmd : lookup fields "metadata" = some (.map md)) :
    removeMetaField fields key = setKey fields "metadata" (.map (removeKey md key)) := by
  simp [removeMetaField, hmd]

/-- The exact effect of the P0 strip on a document whose metadata is a map:
the metadata map loses `selfLink`, `resourceVersion` and `uid`, gets an empty
`ownerReferences` list, and nothing else in the document changes. -/
theorem stripP0_spec (fields : GoMap) (md : List (String × Value))
    (hmd : lookup fields "metadata" = some (.map md)) :
    lookup (stripP0 fields) "metadata"
      = some (.map (setKey (removeKey (removeKey (removeKey md "selfLink")
          "resourceVersion") "uid") "ownerReferences" (.arr [])))
    ∧ (∀ k, k ≠ "metadata" → lookup (stripP0 fields) k = lookup fields k) := by
  have e1 : setSelfLinkEmptyU fields
      = setKey fields "metadata" (.map (removeKey md "selfLink")) := by
    simp [setSelfLinkEmptyU, removeMetaField_eq fields md _ hmd]
  have l1 : lookup (setSelfLinkEmptyU fields) "metadata"
      = some (.map (removeKey md "selfLink")) := by
    rw [e1]
    exact lookup_setKey_self _ _ _
  have e2 : setResourceVersionEmptyU (setSelfLinkEmptyU fields)
      = setKey (setSelfLinkEmptyU fields) "metadata"
          (.map (removeKey (removeKey md "selfLink") "resourceVersion")) := by
    simp [setResourceVersionEmptyU, removeMetaField_eq _ _ _ l1]
  have l2 : lookup (setResourceVersionEmptyU (setSelfLinkEmptyU fields)) "metadata"
      = some (.map (removeKey (removeKey md "selfLink") "resourceVersion")) := by
    rw [e2]
    exact lookup_setKey_self _ _ _
  have e3 : setUIDEmptyU (setResourceVersionEmptyU (setSelfLinkEmptyU fields))
      = setKey (setResourceVersionEmptyU (setSelfLinkEmptyU fields)) "metadata"
          (.map (removeKey (removeKey (removeKey md "selfLink") "resourceVersion") "uid")) := by
    simp [setUIDEmptyU, removeMetaField_eq _ _ _ l2]
  have l3 : lookup (setUIDEmptyU (setResourceVersionEmptyU (setSelfLinkEmptyU fields)))
      "metadata"
      = some (.map (removeKey (removeKey (removeKey md "selfLink") "resourceVersion") "uid")) := by
    rw [e3]
    exact lookup_setKey_self _ _ _
  have e4 : stripP0 fields
      = setKey (setUIDEmptyU (setResourceVersionEmptyU (setSelfLinkEmptyU fields))) "metadata"
          (.map (setKey (removeKey (removeKey (removeKey md "selfLink") "resourceVersion")
            "uid") "ownerReferences" (.arr []))) := by
    simp [stripP0, setOwnerReferencesEmptyU, setMetaField_eq _ _ _ _ l3]
  constructor
  · rw [e4]
    exact lookup_setKey_self _ _ _
  · intro k hk
    have hk' : "metadata" ≠ k := fun hc => hk hc.symm
    rw [e4, lookup_setKey_other _ _ _ _ hk', e3, lookup_setKey_other _ _ _ _ hk',
      e2, lookup_setKey_other _ _ _ _ hk', e1, lookup_setKey_other _ _ _ _ hk']

/-- C7 (amended): the P0-variant strip clears all four server-managed
fields — self-link, resource-version and UID are removed, the owner-reference
list becomes empty — and leaves every other metadata field and every other
top-level field of the document unchanged.  The kedge.go-variant preparation
does not clear the self-link and also rewrites the namespace (see the
counterexample). -/
theorem c7_strip_amended (fields : GoMap) (md : List (String × Value))
    (hmd : lookup fields "metadata" = some (.map md)) :
    lookupMeta (stripP0 fields) "selfLink" = none
    ∧ lookupMeta (stripP0 fields) "resourceVersion" = none
    ∧ lookupMeta (stripP0 fields) "uid" = none
    ∧ lookupMeta (stripP0 fields) "ownerReferences" = some (.arr [])
    ∧ (∀ k, k ≠ "selfLink" → k ≠ "resourceVersion" → k ≠ "uid" → k ≠ "ownerReferences" →
        lookupMeta (stripP0 fields) k = lookupMeta fields k)
    ∧ (∀ k, k ≠ "metadata" → lookup (stripP0 fields) k = lookup fields k) := by
  obtain ⟨hmeta, hother⟩ := stripP0_spec fields md hmd
  have hlm : ∀ key, lookupMeta (stripP0 fields) key
      = lookup (setKey (removeKey (removeKey (removeKey md "selfLink") "resourceVersion")
          "uid") "ownerReferences" (.arr [])) key := by
    intro key
    simp [lookupMeta, hmeta]
  refine ⟨?_, ?_, ?_, ?_, ?_, hother⟩
  · rw [hlm, lookup_setKey_other _ _ _ _ (by decide),
      lookup_removeKey_other _ _ _ (by decide), lookup_removeKey_other _ _ _ (by decide),
      lookup_removeKey_self]
  · rw [hlm, lookup_setKey_other _ _ _ _ (by decide),
      lookup_removeKey_other _ _ _ (by decide), lookup_removeKey_self]
  · rw [hlm, lookup_setKey_other _ _ _ _ (by decide), lookup_removeKey_self]
  · rw [hlm]
    exact lookup_setKey_self _ _ _
  · intro k h1 h2 h3 h4
    rw [hlm, lookup_setKey_other _ _ _ _ (fun hc => h4 hc.symm),
      lookup_removeKey_other _ _ _ (fun hc => h3 hc.symm),
      lookup_removeKey_other _ _ _ (fun hc => h2 hc.symm),
      lookup_removeKey_other _ _ _ (fun hc => h1 hc.symm)]
    simp [lookupMeta, hmd]

/-- A document carrying all four server-managed fields plus ordinary data. -/
def fullDoc : GoMap :=
  [("apiVersion", .str "v1"), ("kind", .str "ConfigMap"),
   ("metadata", .map [("name", .str "cm"), ("selfLink", .str "/api/v1/x"),
     ("resourceVersion", .str "42"), ("uid", .str "abc"),
     ("ownerReferences", .arr [.map [("name", .str "owner")]]),
     ("labels", .map [("app", .str "demo")])]),
   ("data", .map [("k", .str "v")])]

/-- Witness for C7 (amended) at `fullDoc`. -/
theorem c7_strip_amended_witness :
    lookupMeta (stripP0 fullDoc) "selfLink" = none
    ∧ lookupMeta (stripP0 fullDoc) "ownerReferences" = some (.arr [])
    ∧ lookupMeta (stripP0 fullDoc) "labels" = lookupMeta fullDoc "labels"
    ∧ lookup (stripP0 fullDoc) "data" = lookup fullDoc "data" := by
  have h := c7_strip_amended fullDoc
    [("name", .str "cm"), ("selfLink", .str "/api/v1/x"),
     ("resourceVersion", .str "42"), ("uid", .str "abc"),
     ("ownerReferences", .arr [.map [("name", .str "owner")]]),
     ("labels", .map [("app", .str "demo")])] (by rfl)
  exact ⟨h.1, h.2.2.2.1,
    h.2.2.2.2.1 "labels" (by decide) (by decide) (by decide) (by decide),
    h.2.2.2.2.2 "data" (by decide)⟩

/-- A document whose metadata carries a self-link. -/
def slDoc : GoMap :=
  [("apiVersion", .str "v1"), ("kind", .str "ConfigMap"),
   ("metadata", .map [("name", .str "cm"), ("selfLink", .str "/api/v1/x")])]

/-- Counterexample to C7: the kedge.go-variant preparation before the create
attempt leaves the self-link in place — the four server-managed fields are
not all cleared. -/
theorem c7_strip_counterexample :
    lookupMeta (prepareK slDoc "ns") "selfLink" = some (.str "/api/v1/x")
    ∧ lookupMeta (prepareK slDoc "ns") "selfLink" ≠ none := by
  constructor
  · rfl
  · intro hc
    rw [show lookupMeta (prepareK slDoc "ns") "selfLink" = some (.str "/api/v1/x")
      from rfl] at hc
    exact Option.noConfusion hc

-- C2: sibling processing after a failed item.

/-- kedge.go list handling: with flat object items, every item is processed
(failures are only logged inside the void `createOrUpdateResource`). -/
theorem couListK_flat (cl : Cluster) (ns : String) (ms : List GoMap)
    (h : ∀ m ∈ ms, isListU m = false) :
    couListK cl ns (ms.map Value.map) = (ms.map (fun m => singleK cl ns m)).flatten := by
  induction ms with
  | nil => simp [couListK]
  | cons m rest ih =>
    have hm := couK_eq_single cl ns m (h m (by simp))
    have hrest := ih (fun g hg => h g (by simp [hg]))
    simp [couListK, hm, hrest]

/-- P0 list handling: the first item whose processing returns an error stops
`EachListItem`; the items before it are attempted, the items after it are
not, and the error is returned. -/
theorem couListP0_abort (cl : Cluster) (ns : String)
    (pre : List GoMap) (x : GoMap) (post : List GoMap) (e : String)
    (hflat : ∀ m ∈ pre ++ x :: post, isListU m = false)
    (hpre : ∀ m ∈ pre, (singleP0 cl ns m).2 = .ok ())
    (hx : (singleP0 cl ns x).2 = .error e) :
    couListP0 cl ns ((pre ++ x :: post).map Value.map)
      = ((pre.map (fun m => (singleP0 cl ns m).1.toList)).flatten
          ++ (singleP0 cl ns x).1.toList, .error e) := by
  induction pre with
  | nil =>
    have hxflat : isListU x = false := hflat x (by simp)
    have hxeq := couP0_eq_single cl ns x hxflat
    simp [couListP0, hxeq, hx]
  | cons p rest ih =>
    have hpflat : isListU p = false := hflat p (by simp)
    have hpeq := couP0_eq_single cl ns p hpflat
    have hpok : (singleP0 cl ns p).2 = .ok () := hpre p (by simp)
    have hrec := ih (fun m hm => hflat m (by simp at hm ⊢; tauto))
      (fun m hm => hpre m (by simp [hm]))
    simp only [List.map_append, List.map_cons] at hrec
    simp [couListP0, hpeq, hpok, hrec]

/-- C2 (amended): for a manifest decoding to a flat list of resources, in the
kedge.go variant (reconciliation failures only logged) every sibling is
processed no matter which items fail; in the P0 variant (failures returned
through `EachListItem`) the loop stops at the first failed item — the items
before it are attempted, every sibling after it is not. -/
theorem c2_sibling_processing_amended (cl : Cluster) (ns : String)
    (pre : List GoMap) (x : GoMap) (post : List GoMap) (e : String)
    (hflat : ∀ m ∈ pre ++ x :: post, isListU m = false)
    (hpre : ∀ m ∈ pre, (singleP0 cl ns m).2 = .ok ())
    (hx : (singleP0 cl ns x).2 = .error e) :
    couListP0 cl ns ((pre ++ x :: post).map Value.map)
      = ((pre.map (fun m => (singleP0 cl ns m).1.toList)).flatten
          ++ (singleP0 cl ns x).1.toList, .error e)
    ∧ couListK cl ns ((pre ++ x :: post).map Value.map)
      = ((pre ++ x :: post).map (fun m => singleK cl ns m)).flatten :=
  ⟨couListP0_abort cl ns pre x post e hflat hpre hx, couListK_flat cl ns _ hflat⟩

/-- Flat single resources used by the C2 scenario. -/
def cmR0 : GoMap :=
  [("apiVersion", .str "v1"), ("kind", .str "ConfigMap"),
   ("metadata", .map [("name", .str "r0")])]

def cmR1 : GoMap :=
  [("apiVersion", .str "v1"), ("kind", .str "ConfigMap"),
   ("metadata", .map [("name", .str "r1")])]

def cmR2 : GoMap :=
  [("apiVersion", .str "v1"), ("kind", .str "ConfigMap"),
   ("metadata", .map [("name", .str "r2")])]

/-- A two-item manifest list whose first item is `r1`. -/
def listDoc : Value :=
  .map [("apiVersion", .str "v1"), ("kind", .str "List"),
    ("items", .arr [.map cmR1, .map cmR2])]

/-- A cluster on which creating `r1` fails and every other create succeeds. -/
def clFailR1 : Cluster where
  resolve := fun _ _ => .ok true
  create := fun _ obj => if getNameU obj = "r1" then .otherError "boom" else .created
  patchData := fun o => .ok o
  patch := fun _ _ _ => .ok ()

/-- Counterexample to C2: in the P0 variant, a two-item manifest whose first
item fails its create attempt makes `createOrUpdateResource` return that
error from `EachListItem`, so the sibling `r2` after the failed item is never
attempted. -/
theorem c2_sibling_processing_counterexample :
    ((couP0 clFailR1 "ns" listDoc).1.map (fun c => getNameU c.2) = ["r1"])
    ∧ ("r2" ∉ (couP0 clFailR1 "ns" listDoc).1.map (fun c => getNameU c.2))
    ∧ (couP0 clFailR1 "ns" listDoc).2 ≠ .ok () := by
  have h : (couP0 clFailR1 "ns" listDoc).1.map (fun c => getNameU c.2) = ["r1"] := by
    simp [couP0, couListP0, singleP0, prepareP0, listDoc, cmR1, cmR2, clFailR1, getStrField,
      lookup, getNamespaceU, getNameU, lookupMeta, setNamespaceU, setMetaField, removeMetaField,
      stripP0, setSelfLinkEmptyU, setResourceVersionEmptyU, setUIDEmptyU,
      setOwnerReferencesEmptyU, setKey, removeKey]
  refine ⟨h, ?_, ?_⟩
  · rw [h]
    decide
  · simp [couP0, couListP0, singleP0, prepareP0, listDoc, cmR1, cmR2, clFailR1, getStrField,
      lookup, getNamespaceU, getNameU, lookupMeta, setNamespaceU, setMetaField, removeMetaField,
      stripP0, setSelfLinkEmptyU, setResourceVersionEmptyU, setUIDEmptyU,
      setOwnerReferencesEmptyU, setKey, removeKey]

/-- Witness for C2 (amended) at the concrete scenario `r0` (succeeds), `r1`
(create fails), `r2` (sibling after the failure). -/
theorem c2_sibling_processing_amended_witness :
    couListP0 clFailR1 "ns" (([cmR0] ++ cmR1 :: [cmR2]).map Value.map)
      = (([cmR0].map (fun m => (singleP0 clFailR1 "ns" m).1.toList)).flatten
          ++ (singleP0 clFailR1 "ns" cmR1).1.toList,
         .error "ERROR: could not create ConfigMap 'ns/r1': boom")
    ∧ couListK clFailR1 "ns" (([cmR0] ++ cmR1 :: [cmR2]).map Value.map)
      = (([cmR0] ++ cmR1 :: [cmR2]).map (fun m => singleK clFailR1 "ns" m)).flatten :=
  c2_sibling_processing_amended clFailR1 "ns" [cmR0] cmR1 [cmR2]
    "ERROR: could not create ConfigMap 'ns/r1': boom"
    (by decide) (by decide) (by decide)

/-!
Template rendering.  `text/template` execution is modelled for the action
subset exercised here: an action holding a dotted field reference is replaced
by the parameter value at that key (Go renders "<no value>" for a missing map
key).  `render` differs between the variants: kedge.go re-renders its own
output for as long as the template-open marker survives (unbounded in Go,
bounded by `fuel` here); the P0 variant performs a single pass and never
consults `fileContains`, although its own doc comment still promises the
recursion.
-/

/-- The template-open marker character. -/
def obrace : Char := '\x7b'

/-- The template-close marker character. -/
def cbrace : Char := '\x7d'

/-- Template parameters: the string-valued view of the data map used by the
rendering claims. -/
abbrev TplData := List (String × String)

/-- Parameter lookup for the renderer. -/
def lookupStr : TplData → String → Option String
  | [], _ => none
  | (k, v) :: rest, key => if k = key then some v else lookupStr rest key

/-- Space trimming of an action body. -/
def trimChars (l : List Char) : List Char :=
  ((l.dropWhile (fun c => c = ' ')).reverse.dropWhile (fun c => c = ' ')).reverse

/-- Resolve one action body (the text between the markers): trimmed, a
leading dot references the parameter map; a missing key renders Go
text/template's "<no value>". -/
def resolveAction (data : TplData) (acc : List Char) : List Char :=
  match trimChars acc with
  | c :: name =>
    if c = '.' then
      match lookupStr data (String.mk name) with
      | some v => v.toList
      | none => "<no value>".toList
    else "<no value>".toList
  | [] => "<no value>".toList

/-- Scanner state of one execution pass: outside any action; having seen the
first open-marker character; inside an action collecting its body; inside an
action having seen the first close-marker character. -/
inductive ScanMode where
  | out : ScanMode
  | openHalf : ScanMode
  | act : List Char → ScanMode
  | closeHalf : List Char → ScanMode

/-- One execution pass over the template text: scan for the open marker and
replace each completed action with its resolved value. -/
def substGo (data : TplData) : ScanMode → List Char → List Char
  | .out, [] => []
  | .openHalf, [] => [obrace]
  | .act acc, [] => obrace :: obrace :: acc
  | .closeHalf acc, [] => obrace :: obrace :: (acc ++ [cbrace])
  | .out, c :: rest =>
    if c = obrace then substGo data .openHalf rest
    else c :: substGo data .out rest
  | .openHalf, c :: rest =>
    if c = obrace then substGo data (.act []) rest
    else obrace :: c :: substGo data .out rest
  | .act acc, c :: rest =>
    if c = cbrace then substGo data (.closeHalf acc) rest
    else substGo data (.act (acc ++ [c])) rest
  | .closeHalf acc, c :: rest =>
    if c = cbrace then resolveAction data acc ++ substGo data .out rest
    else substGo data (.act (acc ++ [cbrace, c])) rest

/-- `tpl.Execute` against the parameter set (for the subset above). -/
def executeTemplate (data : TplData) (s : String) : String :=
  String.mk (substGo data .out s.toList)

/-- `strings.Contains(line, pattern)`. -/
def containsSeq (pat : List Char) : List Char → Bool
  | [] => pat.isEmpty
  | c :: rest => pat.isPrefixOf (c :: rest) || containsSeq pat rest

/-- The line splitting of `bufio.Scanner` (split on newlines). -/
def splitLines : List Char → List (List Char)
  | [] => [[]]
  | c :: rest =>
    if c = '\n' then [] :: splitLines rest
    else
      match splitLines rest with
      | line :: more => (c :: line) :: more
      | [] => [[c]]

/-- `fileContains(path, open-marker)` — defined in both variants, called only
by kedge.go's render: scan the artifact line by line for the substring. -/
def fileContainsMarker (s : String) : Bool :=
  (splitLines s.toList).any (fun line => containsSeq [obrace, obrace] line)

/-- kedge.go `render`: execute one pass into a temp artifact; if the output
still contains the open marker, invoke render again on that artifact.  The Go
recursion is unbounded; `fuel` bounds the model, `none` meaning the pass
limit was hit. -/
def renderK (data : TplData) : Nat → String → Option String
  | 0, _ => none
  | fuel + 1, tf =>
    let out := executeTemplate data tf
    if fileContainsMarker out then renderK data fuel out
    else some out

/-- The P0-variant `render`: parse, execute once into a temp artifact, read
it back — no marker check, no recursion. -/
def renderP0 (data : TplData) (tf : String) : String :=
  executeTemplate data tf

/-- The parameters of the C5 scenario: the value of `a` is itself a template
fragment referencing the second parameter `b`. -/
def demoData : TplData := [("a", "\x7b\x7b .b \x7d\x7d"), ("b", "x")]

/-- The template of the C5 scenario: a single reference to `a`. -/
def demoTemplate : String := "\x7b\x7b .a \x7d\x7d"

/-- C5: evaluation at the two-parameter scenario.  The kedge.go render
expands the template fully in exactly two passes — fuel 2 suffices and fuel 1
does not, i.e. exactly one additional pass beyond the first is taken — while
the P0-variant render stops after one pass with the open marker still present
in its output, contradicting the recursion promised by the claim and by that
function's own doc comment. -/
theorem c5_recursive_render_eval :
    renderP0 demoData demoTemplate = "\x7b\x7b .b \x7d\x7d"
    ∧ fileContainsMarker (renderP0 demoData demoTemplate) = true
    ∧ renderK demoData 2 demoTemplate = some "x"
    ∧ renderK demoData 1 demoTemplate = none := by
  refine ⟨?_, ?_, ?_, ?_⟩ <;> rfl

/-- C1: evaluation of the two `Apply` variants on failing step oracles.  A
values-file failure and a stat failure abort both variants with an error; a
render failure aborts the P0 variant with the wrapped error, but the kedge.go
variant checks the render error and then returns nil — the render failure is
swallowed (`kedge.go` lines 42-45). -/
theorem c1_apply_error_propagation_eval :
    applyK [] (.ok ()) (fun _ => .error "bad template") clNoop "default" = none
    ∧ applyP0 [] (.ok ()) (fun _ => .error "bad template") clNoop "default"
        = .error "could not render template: bad template"
    ∧ applyK [.error "unable to read values file: vals.yaml"] (.ok ())
        (fun _ => .error "bad template") clNoop "default"
        = some "unable to read values file: vals.yaml"
    ∧ applyP0 [.error "unable to read values file: vals.yaml"] (.ok ())
        (fun _ => .error "bad template") clNoop "default"
        = .error "error reading in values data: unable to read values file: vals.yaml"
    ∧ applyK [] (.error "no such file") (fun _ => .error "bad template") clNoop "default"
        = some "no such file"
    ∧ applyP0 [] (.error "no such file") (fun _ => .error "bad template") clNoop "default"
        = .error "could not stat file: no such file" := by
  refine ⟨rfl, rfl, rfl, rfl, rfl, rfl⟩
